import Mathlib

/-!
Shallow embedding of `src/checkpoints.cpp` (namespace Checkpoints) of the
bitblock repository, together with proofs about its operations.

Modelling conventions:
* `uint256` block hashes are natural numbers (a `uint256` holds a value
  below 2^256; every literal in the source fits, so no reduction is needed.
  The literal on source line 38 carries a stray trailing `x`: `uint256`'s
  hex constructor stops at the first non-hex character and keeps the low
  256 bits of the digits read, which here equals the plain hex value since
  the 65-digit string has five leading zeros).
* C++ `double` arithmetic in `GuessVerificationProgress` is modelled as
  exact rational (`ℚ`) arithmetic; `int`/`int64` become `Int`.
* `std::map<int, uint256>` is an association list sorted strictly
  ascending by key (which the compiled-in literals are); `rbegin()` is the
  last element, and reverse iteration is iteration over the reversed list.
  Dereferencing `rbegin()` of an empty map yields no value (C++ undefined
  behaviour); it is modelled as `Option.none`.
* The process-wide globals read by the code — `fTestNet` and
  `GetBoolArg("-checkpoints", true)` — are bundled into a `Config`
  parameter; the caller-supplied globals `mapBlockIndex` and
  `hashGenesisBlock` are explicit parameters.
* `mapBlockIndex : std::map<uint256, CBlockIndex*>` is an association list
  from hash to block-index record (the stored pointers are modelled as the
  records they point to).  `operator[]`, which inserts a
  default-constructed mapped value when the key is absent, is modelled by
  `bmBracket`, which returns the possibly-extended map so that the
  (absence of) insertion is provable rather than assumed.
-/

namespace Checkpoints

/-- `uint256` block hashes, modelled as natural numbers below 2^256. -/
abbrev uint256 := Nat

/-- The process-wide flags the code reads: the global `fTestNet`, and the
 boolean option `GetBoolArg("-checkpoints", true)`. -/
structure Config where
  fTestNet : Bool
  checkpointsFlag : Bool
  deriving DecidableEq

/-- `typedef std::map<int, uint256> MapCheckpoints`, as an association list
 sorted strictly ascending by key. -/
abbrev MapCheckpoints := List (Int × uint256)

/-- The fields of `CBlockIndex` that this module reads: `nChainTx`,
 `nTime`, and the result of `IsInMainChain()`. -/
structure CBlockIndex where
  nChainTx : Int
  nTime : Int
  isInMainChain : Bool
  deriving DecidableEq

/-- `std::map<uint256, CBlockIndex*>` (the caller-supplied
 `mapBlockIndex`), as an association list; stored pointers are modelled as
 the pointed-to records. -/
abbrev BlockMap := List (uint256 × CBlockIndex)

/-- `static const double fSigcheckVerificationFactor = 5.0`. -/
def fSigcheckVerificationFactor : ℚ := 5

/-- `struct CCheckpointData`. -/
structure CCheckpointData where
  mapCheckpoints : MapCheckpoints
  nTimeLastCheckpoint : Int
  nTransactionsLastCheckpoint : Int
  fTransactionsPerDay : ℚ

/-- The production checkpoint table (`static MapCheckpoints
 mapCheckpoints`).  `map_list_of` inserts in the listed order, which is
 already strictly ascending by height. -/
def mapCheckpoints : MapCheckpoints :=
  [ (0, 0x00000076d84c62af64353f3b59d8515191ee9f27e56d9c8422b1964aa6d167155),
    (1000, 0x00000dd11391efd43db7bbbe1de4c07cd82ec207b4074464256bc4d9deaa18c4),
    (2000, 0x0000002f154e014512f4e621aef1af30f38fe2f2de995819877468a432067dce),
    (3000, 0x000000002cb5bc53bfd466f66a61a6437a7bfdd490e7c75637bf190f0329c6a4),
    (4000, 0x000000001a14bd8ddaff31c518af4734183f5f45ddc3ccd8eb05531f0e8358a6),
    (5000, 0x00000000626014b6a0ff0895f586c99d6fdf4a1b9e61f58fac1280c6b8b1a159),
    (6000, 0x0000000012ab31fbdf4d7ca8bbf12cc63aaa19c4bc6f71fc49690ce0d2847902),
    (7000, 0x000000000083394cff579c43017e58108f1e762e66cbd77b207aec198a8f7fd6),
    (7387, 0x0000000000ff52a2bf06e724e846f5cc7a85b9f43ede7adc89b289564a3e724d) ]

/-- `static const CCheckpointData data`: production calibration. -/
def data : CCheckpointData :=
  ⟨mapCheckpoints, 1403925464, 25000, 800⟩

/-- The testnet checkpoint table (`static MapCheckpoints
 mapCheckpointsTestnet`); `uint256("0")` parses to 0. -/
def mapCheckpointsTestnet : MapCheckpoints :=
  [ (44, 0) ]

/-- `static const CCheckpointData dataTestnet`. -/
def dataTestnet : CCheckpointData :=
  ⟨mapCheckpointsTestnet, 1393373461, 3000, 30⟩

/-- `const CCheckpointData &Checkpoints()`: select the active calibration
 by network mode. -/
def CheckpointsData (cfg : Config) : CCheckpointData :=
  if cfg.fTestNet then dataTestnet else data

/-- `std::map::find` on the checkpoint table (keys are unique). -/
def mapFind : MapCheckpoints → Int → Option uint256
  | [], _ => none
  | (k, v) :: rest, nHeight => if nHeight = k then some v else mapFind rest nHeight

/-- `std::map::rbegin()` on the ascending association list: the
 maximum-key entry, or `none` on an empty map (where dereferencing
 `rbegin()` is undefined in C++). -/
def mapRbegin (m : MapCheckpoints) : Option (Int × uint256) :=
  m.getLast?

/-- `bool CheckBlock(int nHeight, const uint256& hash)` (source lines
 74–85). -/
def CheckBlock (cfg : Config) (nHeight : Int) (hash : uint256) : Bool :=
  if cfg.fTestNet then true
  else if !cfg.checkpointsFlag then true
  else
    match mapFind (CheckpointsData cfg).mapCheckpoints nHeight with
    | none => true
    | some stored => hash = stored

/-- The body of `GuessVerificationProgress` after the NULL check, with the
 active calibration `data = Checkpoints()` and the clock reading `nNow`
 made explicit (source lines 92–115). -/
def guessCore (d : CCheckpointData) (nNow : Int) (pindex : CBlockIndex) : ℚ :=
  if pindex.nChainTx ≤ d.nTransactionsLastCheckpoint then
    let nCheapBefore : ℚ := (pindex.nChainTx : ℚ)
    let nCheapAfter : ℚ := (d.nTransactionsLastCheckpoint : ℚ) - (pindex.nChainTx : ℚ)
    let nExpensiveAfter : ℚ :=
      ((nNow : ℚ) - (d.nTimeLastCheckpoint : ℚ)) / 86400 * d.fTransactionsPerDay
    let fWorkBefore := nCheapBefore
    let fWorkAfter := nCheapAfter + nExpensiveAfter * fSigcheckVerificationFactor
    fWorkBefore / (fWorkBefore + fWorkAfter)
  else
    let nCheapBefore : ℚ := (d.nTransactionsLastCheckpoint : ℚ)
    let nExpensiveBefore : ℚ := (pindex.nChainTx : ℚ) - (d.nTransactionsLastCheckpoint : ℚ)
    let nExpensiveAfter : ℚ :=
      ((nNow : ℚ) - (pindex.nTime : ℚ)) / 86400 * d.fTransactionsPerDay
    let fWorkBefore := nCheapBefore + nExpensiveBefore * fSigcheckVerificationFactor
    let fWorkAfter := nExpensiveAfter * fSigcheckVerificationFactor
    fWorkBefore / (fWorkBefore + fWorkAfter)

/-- `double GuessVerificationProgress(CBlockIndex *pindex)` (source lines
 88–116); the NULL argument is `none`, `nNow` is the value `time(NULL)`
 returned by the clock during the call. -/
def GuessVerificationProgress (cfg : Config) (nNow : Int)
    (pindex : Option CBlockIndex) : ℚ :=
  match pindex with
  | none => 0
  | some p => guessCore (CheckpointsData cfg) nNow p

/-- The local `fWorkBefore` of `GuessVerificationProgress` as a function
 of its inputs (numerator of the returned fraction; it does not depend on
 the clock). -/
def progressWorkBefore (d : CCheckpointData) (pindex : CBlockIndex) : ℚ :=
  if pindex.nChainTx ≤ d.nTransactionsLastCheckpoint then
    (pindex.nChainTx : ℚ)
  else
    (d.nTransactionsLastCheckpoint : ℚ) +
      ((pindex.nChainTx : ℚ) - (d.nTransactionsLastCheckpoint : ℚ)) * fSigcheckVerificationFactor

/-- The sum `fWorkBefore + fWorkAfter` of `GuessVerificationProgress` as a
 function of its inputs (denominator of the returned fraction). -/
def progressDenominator (d : CCheckpointData) (nNow : Int) (pindex : CBlockIndex) : ℚ :=
  if pindex.nChainTx ≤ d.nTransactionsLastCheckpoint then
    (pindex.nChainTx : ℚ) +
      (((d.nTransactionsLastCheckpoint : ℚ) - (pindex.nChainTx : ℚ)) +
        ((nNow : ℚ) - (d.nTimeLastCheckpoint : ℚ)) / 86400 * d.fTransactionsPerDay *
          fSigcheckVerificationFactor)
  else
    ((d.nTransactionsLastCheckpoint : ℚ) +
        ((pindex.nChainTx : ℚ) - (d.nTransactionsLastCheckpoint : ℚ)) * fSigcheckVerificationFactor) +
      ((nNow : ℚ) - (pindex.nTime : ℚ)) / 86400 * d.fTransactionsPerDay *
        fSigcheckVerificationFactor

/-- `int GetTotalBlocksEstimate()` (source lines 118–127);
 `rbegin()->first` on an empty table would be undefined, hence `Option`. -/
def GetTotalBlocksEstimate (cfg : Config) : Option Int :=
  if cfg.fTestNet then some 0
  else if !cfg.checkpointsFlag then some 0
  else (mapRbegin (CheckpointsData cfg).mapCheckpoints).map Prod.fst

/-- `std::map::find` on the caller-supplied `mapBlockIndex`. -/
def bmFind : BlockMap → uint256 → Option CBlockIndex
  | [], _ => none
  | (k, v) :: rest, hash => if hash = k then some v else bmFind rest hash

/-- `std::map::count` on `mapBlockIndex` (0 or 1, keys unique). -/
def bmCount (m : BlockMap) (hash : uint256) : Nat :=
  if (bmFind m hash).isSome then 1 else 0

/-- `mapBlockIndex[hash]`: non-const `operator[]`, which inserts a
 default-constructed mapped value when the key is absent (for the stored
 `CBlockIndex*` pointers that default is a null pointer, modelled here by
 the zero record, never dereferenced at a reachable point because the code
 guards the access with `count`).  Returns the mapped value together with
 the possibly-extended map. -/
def bmBracket (m : BlockMap) (hash : uint256) : CBlockIndex × BlockMap :=
  match bmFind m hash with
  | some v => (v, m)
  | none => (⟨0, 0, false⟩, m ++ [(hash, ⟨0, 0, false⟩)])

/-- The `BOOST_REVERSE_FOREACH` loop of `GetLastCheckpoint` (source lines
 137–144), applied to the table entries in descending height order. -/
def lastCheckpointScan : List (Int × uint256) → BlockMap → Option CBlockIndex
  | [], _ => none
  | (_, hash) :: rest, mbi =>
    match bmFind mbi hash with
    | some pindex => some pindex
    | none => lastCheckpointScan rest mbi

/-- `CBlockIndex* GetLastCheckpoint(const std::map<uint256, CBlockIndex*>&
 mapBlockIndex)` (source lines 129–145); the NULL result is `none`. -/
def GetLastCheckpoint (cfg : Config) (mapBlockIndex : BlockMap) : Option CBlockIndex :=
  if cfg.fTestNet then none
  else if !cfg.checkpointsFlag then none
  else lastCheckpointScan (CheckpointsData cfg).mapCheckpoints.reverse mapBlockIndex

/-- The `BOOST_REVERSE_FOREACH` loop of `GetLastAvailableCheckpoint`
 (source lines 150–155), applied to the entries in descending height
 order, threading `mapBlockIndex` through the `operator[]` accesses;
 `genesis` is the global `hashGenesisBlock` returned when no entry
 qualifies. -/
def availableScan : List (Int × uint256) → BlockMap → uint256 → uint256 × BlockMap
  | [], mbi, genesis => (genesis, mbi)
  | (_, hash) :: rest, mbi, genesis =>
    if bmCount mbi hash ≠ 0 then
      match bmBracket mbi hash with
      | (pindex, mbi1) =>
        if pindex.isInMainChain then (hash, mbi1)
        else availableScan rest mbi1 genesis
    else availableScan rest mbi genesis

/-- `uint256 GetLastAvailableCheckpoint()` (source lines 147–156).  Note
 the table is chosen directly by `fTestNet ? mapCheckpointsTestnet :
 mapCheckpoints`, with no `-checkpoints` flag check; the globals
 `mapBlockIndex` and `hashGenesisBlock` are explicit parameters, and the
 possibly-modified `mapBlockIndex` is returned alongside the hash. -/
def GetLastAvailableCheckpoint (cfg : Config) (mapBlockIndex : BlockMap)
    (hashGenesisBlock : uint256) : uint256 × BlockMap :=
  availableScan
    (if cfg.fTestNet then mapCheckpointsTestnet else mapCheckpoints).reverse
    mapBlockIndex hashGenesisBlock

/-- The table read (`rbegin()->second`) underlying
 `GetLatestHardenedCheckpoint`, generalized over the table; on an empty
 table `rbegin()` has nothing to dereference and no hash is produced. -/
def latestHardenedFromTable (m : MapCheckpoints) : Option uint256 :=
  (mapRbegin m).map Prod.snd

/-- `uint256 GetLatestHardenedCheckpoint()` (source lines 158–162). -/
def GetLatestHardenedCheckpoint (cfg : Config) : Option uint256 :=
  latestHardenedFromTable (CheckpointsData cfg).mapCheckpoints

/-- Spec-side predicate for `GetLastAvailableCheckpoint`: the table hash
 is present in the caller's block index and the indexed entry is on the
 main chain. -/
def availQ (mbi : BlockMap) (hash : uint256) : Bool :=
  match bmFind mbi hash with
  | some pindex => pindex.isInMainChain
  | none => false

/-- Spec-side restatement, following the spec's words (section 4.2), for
 comparison with `GuessVerificationProgress`: if no block reference is
 supplied the result is 0; when the block's cumulative transaction count
 is at or below the calibration's last-checkpoint transaction count,
 work-before is the block's count and work-after is (checkpoint count −
 block count) plus (days elapsed from the checkpoint timestamp to now ×
 transactions/day × 5.0); past the checkpoint, work-before is checkpoint
 count + (block count − checkpoint count) × 5.0 and work-after is (days
 elapsed from the block's own timestamp to now × transactions/day) × 5.0;
 the result is work-before / (work-before + work-after). -/
def progressSpec (cfg : Config) (nNow : Int) (pindex : Option CBlockIndex) : ℚ :=
  match pindex with
  | none => 0
  | some p =>
    let d := CheckpointsData cfg
    if p.nChainTx ≤ d.nTransactionsLastCheckpoint then
      let workBefore : ℚ := (p.nChainTx : ℚ)
      let workAfter : ℚ :=
        ((d.nTransactionsLastCheckpoint : ℚ) - (p.nChainTx : ℚ)) +
          ((nNow : ℚ) - (d.nTimeLastCheckpoint : ℚ)) / 86400 * d.fTransactionsPerDay * 5
      workBefore / (workBefore + workAfter)
    else
      let workBefore : ℚ :=
        (d.nTransactionsLastCheckpoint : ℚ) +
          ((p.nChainTx : ℚ) - (d.nTransactionsLastCheckpoint : ℚ)) * 5
      let workAfter : ℚ :=
        ((nNow : ℚ) - (p.nTime : ℚ)) / 86400 * d.fTransactionsPerDay * 5
      workBefore / (workBefore + workAfter)

/-! ## Helper lemmas -/

theorem bmCount_ne_zero_iff (m : BlockMap) (hash : uint256) :
    bmCount m hash ≠ 0 ↔ (bmFind m hash).isSome := by
  by_cases h : (bmFind m hash).isSome <;> simp [bmCount, h]

theorem lastCheckpointScan_eq_none (entries : List (Int × uint256)) (mbi : BlockMap)
    (hnone : ∀ e ∈ entries, bmFind mbi e.2 = none) :
    lastCheckpointScan entries mbi = none := by
  induction entries with
  | nil => rfl
  | cons a rest ih =>
    have ha := hnone a (List.mem_cons_self a rest)
    simp only [lastCheckpointScan, ha]
    exact ih fun e he => hnone e (List.mem_cons_of_mem a he)

theorem lastCheckpointScan_eq_max (entries : List (Int × uint256)) (mbi : BlockMap)
    (hsorted : entries.Pairwise fun a b => b.1 < a.1)
    (e : Int × uint256) (he : e ∈ entries) (hq : (bmFind mbi e.2).isSome)
    (hmax : ∀ e2 ∈ entries, (bmFind mbi e2.2).isSome → e2.1 ≤ e.1) :
    lastCheckpointScan entries mbi = bmFind mbi e.2 := by
  induction entries with
  | nil => cases he
  | cons a rest ih =>
    rw [List.pairwise_cons] at hsorted
    cases hfind : bmFind mbi a.2 with
    | some v =>
      have hea : e = a := by
        rcases List.mem_cons.mp he with h | h
        · exact h
        · exact absurd (hmax a (List.mem_cons_self a rest) (by simp [hfind]))
            (not_le.mpr (hsorted.1 e h))
      subst hea
      simp [lastCheckpointScan, hfind]
    | none =>
      have hea : e ∈ rest := by
        rcases List.mem_cons.mp he with h | h
        · subst h; rw [hfind] at hq; cases hq
        · exact h
      simp only [lastCheckpointScan, hfind]
      exact ih hsorted.2 hea fun e2 h2 => hmax e2 (List.mem_cons_of_mem a h2)

theorem availableScan_snd (entries : List (Int × uint256)) (mbi : BlockMap)
    (genesis : uint256) : (availableScan entries mbi genesis).2 = mbi := by
  induction entries with
  | nil => rfl
  | cons a rest ih =>
    simp only [availableScan]
    cases hfind : bmFind mbi a.2 with
    | some v =>
      have hc : bmCount mbi a.2 ≠ 0 := (bmCount_ne_zero_iff mbi a.2).mpr (by simp [hfind])
      simp only [hc, if_true, bmBracket, hfind]
      cases hv : v.isInMainChain
      · simpa [hv, hc] using ih
      · simp [hv, hc]
    | none =>
      have hc : ¬ bmCount mbi a.2 ≠ 0 := by
        simp [bmCount_ne_zero_iff, hfind]
      simp only [hc, if_false]
      exact ih

theorem availableScan_fst_genesis (entries : List (Int × uint256)) (mbi : BlockMap)
    (genesis : uint256) (hnone : ∀ e ∈ entries, availQ mbi e.2 = false) :
    (availableScan entries mbi genesis).1 = genesis := by
  induction entries with
  | nil => rfl
  | cons a rest ih =>
    have ha := hnone a (List.mem_cons_self a rest)
    have ihr := ih fun e he => hnone e (List.mem_cons_of_mem a he)
    simp only [availableScan]
    cases hfind : bmFind mbi a.2 with
    | some v =>
      have hv : v.isInMainChain = false := by
        simpa [availQ, hfind] using ha
      have hc : bmCount mbi a.2 ≠ 0 := (bmCount_ne_zero_iff mbi a.2).mpr (by simp [hfind])
      simp only [hc, if_true, bmBracket, hfind, hv]
      simpa using ihr
    | none =>
      have hc : ¬ bmCount mbi a.2 ≠ 0 := by
        simp [bmCount_ne_zero_iff, hfind]
      simp only [hc, if_false]
      exact ihr

theorem availableScan_fst_max (entries : List (Int × uint256)) (mbi : BlockMap)
    (genesis : uint256) (hsorted : entries.Pairwise fun a b => b.1 < a.1)
    (e : Int × uint256) (he : e ∈ entries) (hq : availQ mbi e.2 = true)
    (hmax : ∀ e2 ∈ entries, availQ mbi e2.2 = true → e2.1 ≤ e.1) :
    (availableScan entries mbi genesis).1 = e.2 := by
  induction entries with
  | nil => cases he
  | cons a rest ih =>
    rw [List.pairwise_cons] at hsorted
    by_cases hqa : availQ mbi a.2 = true
    · have hea : e = a := by
        rcases List.mem_cons.mp he with h | h
        · exact h
        · exact absurd (hmax a (List.mem_cons_self a rest) hqa)
            (not_le.mpr (hsorted.1 e h))
      subst hea
      cases hfind : bmFind mbi e.2 with
      | some v =>
        have hv : v.isInMainChain = true := by
          simpa [availQ, hfind] using hqa
        have hc : bmCount mbi e.2 ≠ 0 := (bmCount_ne_zero_iff mbi e.2).mpr (by simp [hfind])
        simp [availableScan, hc, bmBracket, hfind, hv]
      | none =>
        rw [availQ, hfind] at hqa; cases hqa
    · have hea : e ∈ rest := by
        rcases List.mem_cons.mp he with h | h
        · subst h; exact absurd hq hqa
        · exact h
      have ihr := ih hsorted.2 hea fun e2 h2 => hmax e2 (List.mem_cons_of_mem a h2)
      simp only [availableScan]
      cases hfind : bmFind mbi a.2 with
      | some v =>
        have hv : v.isInMainChain = false := by
          rw [availQ, hfind] at hqa
          simpa using hqa
        have hc : bmCount mbi a.2 ≠ 0 := (bmCount_ne_zero_iff mbi a.2).mpr (by simp [hfind])
        simp only [hc, if_true, bmBracket, hfind, hv]
        simpa using ihr
      | none =>
        have hc : ¬ bmCount mbi a.2 ≠ 0 := by
          simp [bmCount_ne_zero_iff, hfind]
        simp only [hc, if_false]
        exact ihr

theorem mapCheckpoints_reverse_sorted :
    mapCheckpoints.reverse.Pairwise (fun a b => b.1 < a.1) := by
  decide

theorem mapCheckpointsTestnet_reverse_sorted :
    mapCheckpointsTestnet.reverse.Pairwise (fun a b => b.1 < a.1) := by
  decide

theorem div_antitone_denom (a b c : ℚ) (ha : 0 ≤ a) (hb : 0 < b) (hbc : b ≤ c) :
    a / c ≤ a / b := by
  rw [div_le_div_iff₀ (lt_of_lt_of_le hb hbc) hb]
  exact mul_le_mul_of_nonneg_left hbc ha

theorem expensiveAfter_nonneg (rate x : ℚ) (hx : 0 ≤ x) (hrate : 0 ≤ rate) :
    0 ≤ x / 86400 * rate * fSigcheckVerificationFactor := by
  have h1 : (0:ℚ) ≤ x / 86400 := div_nonneg hx (by norm_num)
  have h2 : (0:ℚ) ≤ x / 86400 * rate := mul_nonneg h1 hrate
  exact mul_nonneg h2 (by norm_num [fSigcheckVerificationFactor])

theorem expensiveAfter_mono (rate x y : ℚ) (hxy : x ≤ y) (hrate : 0 ≤ rate) :
    x / 86400 * rate * fSigcheckVerificationFactor ≤
      y / 86400 * rate * fSigcheckVerificationFactor := by
  have h1 : x / 86400 ≤ y / 86400 :=
    (div_le_div_iff_of_pos_right (c := (86400:ℚ)) (by norm_num)).mpr hxy
  have h2 : x / 86400 * rate ≤ y / 86400 * rate := mul_le_mul_of_nonneg_right h1 hrate
  exact mul_le_mul_of_nonneg_right h2 (by norm_num [fSigcheckVerificationFactor])

theorem guessCore_eq_div (d : CCheckpointData) (nNow : Int) (b : CBlockIndex) :
    guessCore d nNow b = progressWorkBefore d b / progressDenominator d nNow b := by
  simp only [guessCore, progressWorkBefore, progressDenominator]
  split <;> rfl

theorem progressWorkBefore_nonneg (d : CCheckpointData) (b : CBlockIndex)
    (hdtx : 0 ≤ d.nTransactionsLastCheckpoint) (htx : 0 ≤ b.nChainTx) :
    0 ≤ progressWorkBefore d b := by
  have hdq : (0:ℚ) ≤ (d.nTransactionsLastCheckpoint : ℚ) := by exact_mod_cast hdtx
  have htq : (0:ℚ) ≤ (b.nChainTx : ℚ) := by exact_mod_cast htx
  rw [progressWorkBefore]
  split
  · exact htq
  · rename_i hgt
    have hgtq : (d.nTransactionsLastCheckpoint : ℚ) ≤ (b.nChainTx : ℚ) := by
      exact_mod_cast le_of_lt (lt_of_not_le hgt)
    have : (0:ℚ) ≤ ((b.nChainTx : ℚ) - (d.nTransactionsLastCheckpoint : ℚ)) *
        fSigcheckVerificationFactor := by
      apply mul_nonneg (by linarith) (by norm_num [fSigcheckVerificationFactor])
    linarith

theorem progressDenominator_pos_of (d : CCheckpointData) (nNow : Int) (b : CBlockIndex)
    (hdtx : 0 < d.nTransactionsLastCheckpoint) (hrate : 0 ≤ d.fTransactionsPerDay)
    (htx : 0 ≤ b.nChainTx) (hcpT : d.nTimeLastCheckpoint ≤ nNow) (hbT : b.nTime ≤ nNow) :
    0 < progressDenominator d nNow b := by
  have hdq : (0:ℚ) < (d.nTransactionsLastCheckpoint : ℚ) := by exact_mod_cast hdtx
  have htq : (0:ℚ) ≤ (b.nChainTx : ℚ) := by exact_mod_cast htx
  rw [progressDenominator]
  split
  · have hx : (0:ℚ) ≤ (nNow : ℚ) - (d.nTimeLastCheckpoint : ℚ) := by
      have : (d.nTimeLastCheckpoint : ℚ) ≤ (nNow : ℚ) := by exact_mod_cast hcpT
      linarith
    have hA := expensiveAfter_nonneg d.fTransactionsPerDay _ hx hrate
    linarith
  · rename_i hgt
    have hgtq : (d.nTransactionsLastCheckpoint : ℚ) ≤ (b.nChainTx : ℚ) := by
      exact_mod_cast le_of_lt (lt_of_not_le hgt)
    have hx : (0:ℚ) ≤ (nNow : ℚ) - (b.nTime : ℚ) := by
      have : (b.nTime : ℚ) ≤ (nNow : ℚ) := by exact_mod_cast hbT
      linarith
    have hA := expensiveAfter_nonneg d.fTransactionsPerDay _ hx hrate
    have hB : (0:ℚ) ≤ ((b.nChainTx : ℚ) - (d.nTransactionsLastCheckpoint : ℚ)) *
        fSigcheckVerificationFactor := by
      apply mul_nonneg (by linarith) (by norm_num [fSigcheckVerificationFactor])
    linarith

theorem progressDenominator_mono (d : CCheckpointData) (b : CBlockIndex)
    (nNow nNow2 : Int) (hrate : 0 ≤ d.fTransactionsPerDay) (hle : nNow ≤ nNow2) :
    progressDenominator d nNow b ≤ progressDenominator d nNow2 b := by
  have hleq : (nNow : ℚ) ≤ (nNow2 : ℚ) := by exact_mod_cast hle
  simp only [progressDenominator]
  split
  · have := expensiveAfter_mono d.fTransactionsPerDay
      ((nNow : ℚ) - (d.nTimeLastCheckpoint : ℚ)) ((nNow2 : ℚ) - (d.nTimeLastCheckpoint : ℚ))
      (by linarith) hrate
    linarith
  · have := expensiveAfter_mono d.fTransactionsPerDay
      ((nNow : ℚ) - (b.nTime : ℚ)) ((nNow2 : ℚ) - (b.nTime : ℚ)) (by linarith) hrate
    linarith

theorem progressWorkBefore_le_denominator (d : CCheckpointData) (nNow : Int)
    (b : CBlockIndex) (hrate : 0 ≤ d.fTransactionsPerDay)
    (hcpT : d.nTimeLastCheckpoint ≤ nNow) (hbT : b.nTime ≤ nNow) :
    progressWorkBefore d b ≤ progressDenominator d nNow b := by
  simp only [progressWorkBefore, progressDenominator]
  split
  · rename_i hleb
    have hlebq : (b.nChainTx : ℚ) ≤ (d.nTransactionsLastCheckpoint : ℚ) := by
      exact_mod_cast hleb
    have hx : (0:ℚ) ≤ (nNow : ℚ) - (d.nTimeLastCheckpoint : ℚ) := by
      have : (d.nTimeLastCheckpoint : ℚ) ≤ (nNow : ℚ) := by exact_mod_cast hcpT
      linarith
    have hA := expensiveAfter_nonneg d.fTransactionsPerDay _ hx hrate
    linarith
  · have hx : (0:ℚ) ≤ (nNow : ℚ) - (b.nTime : ℚ) := by
      have : (b.nTime : ℚ) ≤ (nNow : ℚ) := by exact_mod_cast hbT
      linarith
    have hA := expensiveAfter_nonneg d.fTransactionsPerDay _ hx hrate
    linarith

theorem guessCore_bounds_antitone (d : CCheckpointData) (b : CBlockIndex)
    (nNow nNow2 : Int) (hdtx : 0 < d.nTransactionsLastCheckpoint)
    (hrate : 0 ≤ d.fTransactionsPerDay) (htx : 0 ≤ b.nChainTx)
    (hcpT : d.nTimeLastCheckpoint ≤ nNow) (hbT : b.nTime ≤ nNow) (hle : nNow ≤ nNow2) :
    0 ≤ guessCore d nNow b ∧ guessCore d nNow b ≤ 1 ∧
      guessCore d nNow2 b ≤ guessCore d nNow b := by
  have hwb := progressWorkBefore_nonneg d b (le_of_lt hdtx) htx
  have hden := progressDenominator_pos_of d nNow b hdtx hrate htx hcpT hbT
  have hden2 := progressDenominator_pos_of d nNow2 b hdtx hrate htx
    (le_trans hcpT hle) (le_trans hbT hle)
  have hwbd := progressWorkBefore_le_denominator d nNow b hrate hcpT hbT
  have hmono := progressDenominator_mono d b nNow nNow2 hrate hle
  rw [guessCore_eq_div, guessCore_eq_div]
  refine ⟨div_nonneg hwb (le_of_lt hden), ?_, ?_⟩
  · exact (div_le_one hden).mpr hwbd
  · exact div_antitone_denom _ _ _ hwb hden hmono

/-! ## Claim theorems -/

/-- Claim C1: `CheckBlock(height, hash)` returns true unconditionally on the
 test network or when checkpoint enforcement is disabled by configuration;
 otherwise it returns true for every height with no table entry, and for a
 height with an entry it returns true iff the supplied hash equals the
 stored hash. -/
theorem checkBlock_spec (t f : Bool) (nHeight : Int) (hash : uint256) :
    (t = true → CheckBlock ⟨t, f⟩ nHeight hash = true) ∧
    (f = false → CheckBlock ⟨t, f⟩ nHeight hash = true) ∧
    (t = false → f = true →
      (mapFind (CheckpointsData ⟨t, f⟩).mapCheckpoints nHeight = none →
        CheckBlock ⟨t, f⟩ nHeight hash = true) ∧
      (∀ stored, mapFind (CheckpointsData ⟨t, f⟩).mapCheckpoints nHeight = some stored →
        (CheckBlock ⟨t, f⟩ nHeight hash = true ↔ hash = stored))) := by
  refine ⟨?_, ?_, ?_⟩
  · rintro rfl; simp [CheckBlock]
  · rintro rfl; simp [CheckBlock]
  · rintro rfl rfl
    constructor
    · intro hnone
      simp [CheckBlock, hnone]
    · intro stored hsome
      simp [CheckBlock, hsome]

/-- Witness for C1: the checkpointed height 1000 of the production table
 accepts exactly the stored hash. -/
theorem checkBlock_spec_witness :
    CheckBlock ⟨false, true⟩ 1000
      0x00000dd11391efd43db7bbbe1de4c07cd82ec207b4074464256bc4d9deaa18c4 = true := by
  have h := ((checkBlock_spec false true 1000
      0x00000dd11391efd43db7bbbe1de4c07cd82ec207b4074464256bc4d9deaa18c4).2.2 rfl rfl).2
      0x00000dd11391efd43db7bbbe1de4c07cd82ec207b4074464256bc4d9deaa18c4 (by decide)
  exact h.mpr rfl

/-- Claim C2: `GetLatestHardenedCheckpoint()` returns the hash of the
 highest-height entry of the active table on both networks, with no
 dependence on the enable/disable flag and no test-network exemption, and
 on an empty table it produces no hash at all (the `rbegin()` dereference
 has no value) rather than any sentinel. -/
theorem getLatestHardenedCheckpoint_spec :
    (∀ f : Bool,
      GetLatestHardenedCheckpoint ⟨false, f⟩ =
        some 0x0000000000ff52a2bf06e724e846f5cc7a85b9f43ede7adc89b289564a3e724d ∧
      GetLatestHardenedCheckpoint ⟨true, f⟩ = some 0) ∧
    ((7387, 0x0000000000ff52a2bf06e724e846f5cc7a85b9f43ede7adc89b289564a3e724d)
        ∈ mapCheckpoints ∧
      mapCheckpoints.all fun e => e.1 ≤ 7387) ∧
    ((44, 0) ∈ mapCheckpointsTestnet ∧ mapCheckpointsTestnet.all fun e => e.1 ≤ 44) ∧
    latestHardenedFromTable [] = none := by
  decide

/-- Claim C3: `GetLastAvailableCheckpoint()` returns the hash of the
 highest-height table entry that is present in the block index and on the
 main chain, and the genesis hash when no entry qualifies. -/
theorem getLastAvailableCheckpoint_spec (t f : Bool) (mbi : BlockMap) (g : uint256) :
    ((∀ e ∈ (if t then mapCheckpointsTestnet else mapCheckpoints), availQ mbi e.2 = false) →
      (GetLastAvailableCheckpoint ⟨t, f⟩ mbi g).1 = g) ∧
    (∀ e ∈ (if t then mapCheckpointsTestnet else mapCheckpoints), availQ mbi e.2 = true →
      (∀ e2 ∈ (if t then mapCheckpointsTestnet else mapCheckpoints),
        availQ mbi e2.2 = true → e2.1 ≤ e.1) →
      (GetLastAvailableCheckpoint ⟨t, f⟩ mbi g).1 = e.2) := by
  constructor
  · intro hnone
    exact availableScan_fst_genesis _ mbi g fun e he => hnone e (List.mem_reverse.mp he)
  · intro e he hq hmax
    have hsorted : ((if t then mapCheckpointsTestnet else mapCheckpoints).reverse).Pairwise
        fun a b => b.1 < a.1 := by
      cases t
      · simpa using mapCheckpoints_reverse_sorted
      · simpa using mapCheckpointsTestnet_reverse_sorted
    exact availableScan_fst_max _ mbi g hsorted e (List.mem_reverse.mpr he) hq
      fun e2 h2 hq2 => hmax e2 (List.mem_reverse.mp h2) hq2

/-- Witness for C3: with only the height-0 production hash indexed and on
 the main chain, the height-0 hash is returned (not the genesis fallback,
 here 7). -/
theorem getLastAvailableCheckpoint_spec_witness :
    (GetLastAvailableCheckpoint ⟨false, true⟩
      [(0x00000076d84c62af64353f3b59d8515191ee9f27e56d9c8422b1964aa6d167155,
        ⟨1, 1, true⟩)] 7).1 =
      0x00000076d84c62af64353f3b59d8515191ee9f27e56d9c8422b1964aa6d167155 :=
  (getLastAvailableCheckpoint_spec false true
      [(0x00000076d84c62af64353f3b59d8515191ee9f27e56d9c8422b1964aa6d167155,
        ⟨1, 1, true⟩)] 7).2
    (0, 0x00000076d84c62af64353f3b59d8515191ee9f27e56d9c8422b1964aa6d167155)
    (by decide) (by decide) (by decide)

/-- Claim C4: `GetLastCheckpoint(blockIndex)` is absent on the test network
 or with checkpoints disabled; otherwise it returns the block-index entry
 of the strictly highest-height table entry whose hash is a key of the
 index, and absent when the index holds none of the table's hashes. -/
theorem getLastCheckpoint_spec (t f : Bool) (mbi : BlockMap) :
    (t = true ∨ f = false → GetLastCheckpoint ⟨t, f⟩ mbi = none) ∧
    (t = false → f = true →
      ((∀ e ∈ (CheckpointsData ⟨t, f⟩).mapCheckpoints, bmFind mbi e.2 = none) →
        GetLastCheckpoint ⟨t, f⟩ mbi = none) ∧
      (∀ e ∈ (CheckpointsData ⟨t, f⟩).mapCheckpoints, (bmFind mbi e.2).isSome →
        (∀ e2 ∈ (CheckpointsData ⟨t, f⟩).mapCheckpoints,
          (bmFind mbi e2.2).isSome → e2.1 ≤ e.1) →
        GetLastCheckpoint ⟨t, f⟩ mbi = bmFind mbi e.2)) := by
  constructor
  · rintro (rfl | rfl)
    · simp [GetLastCheckpoint]
    · cases t <;> simp [GetLastCheckpoint]
  · rintro rfl rfl
    constructor
    · intro hnone
      show lastCheckpointScan mapCheckpoints.reverse mbi = none
      exact lastCheckpointScan_eq_none _ mbi fun e he => hnone e (List.mem_reverse.mp he)
    · intro e he hq hmax
      show lastCheckpointScan mapCheckpoints.reverse mbi = bmFind mbi e.2
      exact lastCheckpointScan_eq_max _ mbi mapCheckpoints_reverse_sorted e
        (List.mem_reverse.mpr he) hq fun e2 h2 hq2 => hmax e2 (List.mem_reverse.mp h2) hq2

/-- Witness for C4: with only the height-1000 production hash indexed, the
 stored record for that hash is returned. -/
theorem getLastCheckpoint_spec_witness :
    GetLastCheckpoint ⟨false, true⟩
      [(0x00000dd11391efd43db7bbbe1de4c07cd82ec207b4074464256bc4d9deaa18c4,
        ⟨5, 5, true⟩)] = some ⟨5, 5, true⟩ := by
  have h := ((getLastCheckpoint_spec false true
      [(0x00000dd11391efd43db7bbbe1de4c07cd82ec207b4074464256bc4d9deaa18c4,
        ⟨5, 5, true⟩)]).2 rfl rfl).2
      (1000, 0x00000dd11391efd43db7bbbe1de4c07cd82ec207b4074464256bc4d9deaa18c4)
      (by decide) (by decide) (by decide)
  exact h.trans (by decide)

/-- Claim C5: `GuessVerificationProgress` computes exactly the two-regime
 work-before / (work-before + work-after) estimate described by the spec,
 and returns 0 when no block reference is supplied. -/
theorem guessVerificationProgress_matches_spec (t f : Bool) (nNow : Int)
    (pindex : Option CBlockIndex) :
    GuessVerificationProgress ⟨t, f⟩ nNow pindex = progressSpec ⟨t, f⟩ nNow pindex := by
  cases pindex <;> rfl

/-- Claim C6 counterexample: at a fixed block reference inside the claim's
 stated domain (non-negative transaction count, clock at or past every
 referenced timestamp), a strictly later clock reading yields a strictly
 smaller value, so the result is not non-decreasing in "now". -/
theorem guessProgress_monotonicity_counterexample :
    (0:Int) ≤ ((⟨25000, 1403925464, true⟩ : CBlockIndex)).nChainTx ∧
    (CheckpointsData ⟨false, true⟩).nTimeLastCheckpoint ≤ 1403925464 ∧
    ((⟨25000, 1403925464, true⟩ : CBlockIndex)).nTime ≤ 1403925464 ∧
    (1403925464:Int) ≤ 1403925464 + 86400 ∧
    GuessVerificationProgress ⟨false, true⟩ (1403925464 + 86400)
        (some ⟨25000, 1403925464, true⟩) <
      GuessVerificationProgress ⟨false, true⟩ 1403925464
        (some ⟨25000, 1403925464, true⟩) := by
  refine ⟨by norm_num, by norm_num [CheckpointsData, data], by norm_num, by norm_num, ?_⟩
  norm_num [GuessVerificationProgress, guessCore, CheckpointsData, data,
    fSigcheckVerificationFactor]

/-- Claim C6 (amended): for a fixed non-null block reference with
 non-negative transaction count and "now" at least every referenced
 timestamp, the result lies in [0,1]; and as "now" increases the result is
 non-increasing (the original claim said non-decreasing). -/
theorem guessProgress_bounds_and_antitone (t f : Bool) (b : CBlockIndex)
    (nNow nNow2 : Int) (htx : 0 ≤ b.nChainTx)
    (hcpT : (CheckpointsData ⟨t, f⟩).nTimeLastCheckpoint ≤ nNow)
    (hbT : b.nTime ≤ nNow) (hle : nNow ≤ nNow2) :
    0 ≤ GuessVerificationProgress ⟨t, f⟩ nNow (some b) ∧
    GuessVerificationProgress ⟨t, f⟩ nNow (some b) ≤ 1 ∧
    GuessVerificationProgress ⟨t, f⟩ nNow2 (some b) ≤
      GuessVerificationProgress ⟨t, f⟩ nNow (some b) := by
  have hd : 0 < (CheckpointsData ⟨t, f⟩).nTransactionsLastCheckpoint ∧
      (0:ℚ) ≤ (CheckpointsData ⟨t, f⟩).fTransactionsPerDay := by
    cases t <;> exact ⟨by norm_num [CheckpointsData, data, dataTestnet],
      by norm_num [CheckpointsData, data, dataTestnet]⟩
  exact guessCore_bounds_antitone (CheckpointsData ⟨t, f⟩) b nNow nNow2 hd.1 hd.2
    htx hcpT hbT hle

/-- Witness for the amended C6 at the last-checkpoint block and a clock one
 day later. -/
theorem guessProgress_bounds_and_antitone_witness :
    0 ≤ GuessVerificationProgress ⟨false, true⟩ 1403925464
        (some ⟨25000, 1403925464, true⟩) ∧
    GuessVerificationProgress ⟨false, true⟩ 1403925464
        (some ⟨25000, 1403925464, true⟩) ≤ 1 ∧
    GuessVerificationProgress ⟨false, true⟩ (1403925464 + 86400)
        (some ⟨25000, 1403925464, true⟩) ≤
      GuessVerificationProgress ⟨false, true⟩ 1403925464
        (some ⟨25000, 1403925464, true⟩) :=
  guessProgress_bounds_and_antitone false true ⟨25000, 1403925464, true⟩ 1403925464
    (1403925464 + 86400) (by decide) (by decide) (by decide) (by decide)

/-- Claim C7: `GetTotalBlocksEstimate()` is 0 on the test network or when
 checkpoints are disabled, and otherwise the maximum height key of the
 active (production) table, namely 7387. -/
theorem getTotalBlocksEstimate_spec :
    (∀ f : Bool, GetTotalBlocksEstimate ⟨true, f⟩ = some 0) ∧
    GetTotalBlocksEstimate ⟨false, false⟩ = some 0 ∧
    GetTotalBlocksEstimate ⟨false, true⟩ = some 7387 ∧
    ((7387, 0x0000000000ff52a2bf06e724e846f5cc7a85b9f43ede7adc89b289564a3e724d)
        ∈ mapCheckpoints ∧
      mapCheckpoints.all fun e => e.1 ≤ 7387) := by
  decide

/-- Claim C8: `GetLastAvailableCheckpoint` ignores the `-checkpoints`
 configuration flag (same output under both settings), while
 `GetLastCheckpoint` on the same inputs is absent whenever the flag is
 disabled. -/
theorem checkpointFlag_asymmetry (t f f2 : Bool) (mbi : BlockMap) (g : uint256) :
    GetLastAvailableCheckpoint ⟨t, f⟩ mbi g = GetLastAvailableCheckpoint ⟨t, f2⟩ mbi g ∧
    GetLastCheckpoint ⟨t, false⟩ mbi = none :=
  ⟨rfl, by cases t <;> simp [GetLastCheckpoint]⟩

/-- Claim C9: the only operation that indexes into the caller's block-index
 map with the inserting `operator[]` is `GetLastAvailableCheckpoint`, and
 it always hands the map back unchanged (in the embedding every other
 operation is a pure function that is given no way to alter the tables or
 the index). -/
theorem blockIndex_unchanged (cfg : Config) (mbi : BlockMap) (g : uint256) :
    (GetLastAvailableCheckpoint cfg mbi g).2 = mbi :=
  availableScan_snd _ mbi g

/-- Claim C10 counterexample: under the claim's stated hypotheses alone
 (non-negative transaction count and "now" at or past the calibration
 timestamp — but not the block's own timestamp), the denominator can be
 exactly zero: a block just past the checkpoint whose timestamp lies about
 6.25 days in the clock's future. -/
theorem progressDenominator_zero_counterexample :
    (0:Int) ≤ ((⟨25001, 1404465572, true⟩ : CBlockIndex)).nChainTx ∧
    (CheckpointsData ⟨false, true⟩).nTimeLastCheckpoint ≤ 1403925464 ∧
    ¬ (0 < progressDenominator (CheckpointsData ⟨false, true⟩) 1403925464
        ⟨25001, 1404465572, true⟩) := by
  have h : progressDenominator (CheckpointsData ⟨false, true⟩) 1403925464
      ⟨25001, 1404465572, true⟩ = 0 := by
    norm_num [progressDenominator, CheckpointsData, data, fSigcheckVerificationFactor]
  exact ⟨by norm_num, by norm_num [CheckpointsData, data], by rw [h]; norm_num⟩

/-- Claim C10 (amended): for every non-null block reference with
 non-negative transaction count, when "now" is at least the calibration's
 last-checkpoint timestamp and also at least the block's own timestamp,
 the denominator work-before + work-after is strictly positive (both
 compiled-in calibrations have strictly positive
 transactions-at-last-checkpoint: 25000 production, 3000 test), and the
 returned value is exactly work-before divided by that denominator. -/
theorem progressDenominator_pos (t f : Bool) (b : CBlockIndex) (nNow : Int)
    (htx : 0 ≤ b.nChainTx)
    (hcpT : (CheckpointsData ⟨t, f⟩).nTimeLastCheckpoint ≤ nNow)
    (hbT : b.nTime ≤ nNow) :
    0 < progressDenominator (CheckpointsData ⟨t, f⟩) nNow b ∧
    GuessVerificationProgress ⟨t, f⟩ nNow (some b) =
      progressWorkBefore (CheckpointsData ⟨t, f⟩) b /
        progressDenominator (CheckpointsData ⟨t, f⟩) nNow b := by
  have hd : 0 < (CheckpointsData ⟨t, f⟩).nTransactionsLastCheckpoint ∧
      (0:ℚ) ≤ (CheckpointsData ⟨t, f⟩).fTransactionsPerDay := by
    cases t <;> exact ⟨by norm_num [CheckpointsData, data, dataTestnet],
      by norm_num [CheckpointsData, data, dataTestnet]⟩
  exact ⟨progressDenominator_pos_of _ nNow b hd.1 hd.2 htx hcpT hbT,
    guessCore_eq_div _ nNow b⟩

/-- Witness for the amended C10 one second past the production checkpoint
 timestamp. -/
theorem progressDenominator_pos_witness :
    0 < progressDenominator (CheckpointsData ⟨false, true⟩) 1403925465
        ⟨100, 1403925464, true⟩ ∧
    GuessVerificationProgress ⟨false, true⟩ 1403925465 (some ⟨100, 1403925464, true⟩) =
      progressWorkBefore (CheckpointsData ⟨false, true⟩) ⟨100, 1403925464, true⟩ /
        progressDenominator (CheckpointsData ⟨false, true⟩) 1403925465
          ⟨100, 1403925464, true⟩ :=
  progressDenominator_pos false true ⟨100, 1403925464, true⟩ 1403925465
    (by decide) (by decide) (by decide)

end Checkpoints
